import Mathlib

/-!
Verification of the `btc_redeem` transaction builder of the xmr-btc-swap
repository against its specification.

The development shallowly embeds `src/swap/src/xmr_first_protocol/transactions/btc_redeem.rs`
and the balance assertions of `src/swap/tests/harness/mod.rs`.  Components of the
repository that the sources do not include (the `crate::bitcoin` signature
wrappers, `BtcLock`, the BIP-143 sighash, DER parsing and miniscript
satisfaction, which live in external crates or in files outside the provided
sources) are modelled from the specification; each such definition says so in
its doc comment.

The secp256k1 group is modelled in discrete-logarithm coordinates: a group
element is identified with its discrete logarithm with respect to the
generator, so `pub x = x`, point addition is field addition, scalar
multiplication is field multiplication, and the conversion from a point to a
scalar (the x-coordinate projection used by ECDSA) is the identity.  The prime
group order is abstracted to the small prime 101 so that every definition is
computable on concrete inputs.
-/

set_option maxRecDepth 8192

namespace XmrBtcSwap

/-- Order of the scalar field of the model (a small prime standing in for the
secp256k1 group order). -/
abbrev Q : ℕ := 101

instance : Fact (Nat.Prime Q) := ⟨by norm_num⟩

/-- The scalar field of the model. -/
abbrev F : Type := ZMod Q

/-- Public key (group element) of a secret key, in discrete-logarithm
coordinates: `pub x` stands for `x·G`. -/
def pub (x : F) : F := x

/-- Executable field inverse by Fermat's little theorem; it agrees with `⁻¹`
everywhere (`finv_eq_inv`) and, unlike `Inv.inv` on `ZMod`, reduces inside
the kernel so that concrete instances can be checked by `decide`. -/
def finv (x : F) : F := x ^ (Q - 2)

/-- A plain ECDSA signature, as in `ecdsa_fun::Signature`. -/
structure Sig where
  r : F
  s : F
deriving DecidableEq, Repr

/-- An ECDSA adaptor (encrypted) signature, as in
`ecdsa_fun::adaptor::EncryptedSignature`: the nonce commitment `R_hat = k·G`,
the adapted nonce point `R = k·Y`, and the pre-signature scalar `s_hat`. -/
structure EncSig where
  bigR_hat : F
  bigR : F
  s_hat : F
deriving DecidableEq, Repr

/-- Modelled from the spec: RFC6979-style deterministic nonce, a fixed
function of the secret key and the message. -/
def det_nonce (x m : F) : F := x * m + x + m + 1

/-- Modelled from the spec: `sign(x, m) → σ` (ECDSA signing with nonce `k`,
wrapped by `crate::bitcoin::SecretKey::sign`, which is not among the sources).
In discrete-logarithm coordinates `r` is the conversion of `k·G`. -/
def ecdsa_sign (x m k : F) : Sig :=
  ⟨k, finv k * (m + k * x)⟩

/-- Modelled from the spec: `verify(X, m, σ)` (ECDSA verification, wrapped by
`crate::bitcoin::verify_sig`, which is not among the sources): `r` and `s` are
nonzero and the recomputed nonce point `s⁻¹·(m·G + r·X)` converts to `r`. -/
def verify_sig (X m : F) (sg : Sig) : Bool :=
  decide (sg.r ≠ 0 ∧ sg.s ≠ 0 ∧ finv sg.s * (m + sg.r * X) = sg.r)

/-- Modelled from the spec: `encsign(x, Y, m) → σ̃` (adaptor pre-signature,
wrapped by `crate::bitcoin::SecretKey::encsign`, which is not among the
sources), with nonce `k`: `R_hat = k·G`, `R = k·Y`, `r = conv R`,
`s_hat = k⁻¹·(m + r·x)`. -/
def encsign (x Y m k : F) : EncSig :=
  ⟨k, k * Y, finv k * (m + (k * Y) * x)⟩

/-- Modelled from the spec: `encverify(X, Y, m, σ̃)` (adaptor verification,
wrapped by `crate::bitcoin::verify_encsig`, which is not among the sources):
`r` and `s_hat` are nonzero, the pre-signature equation
`s_hat⁻¹·(m·G + r·X) = R_hat` holds, and the embedded DLEQ proof ties
`R = R_hat·Y`. -/
def verify_encsig (X Y m : F) (es : EncSig) : Bool :=
  decide (es.bigR ≠ 0 ∧ es.s_hat ≠ 0 ∧
    finv es.s_hat * (m + es.bigR * X) = es.bigR_hat ∧ es.bigR = es.bigR_hat * Y)

/-- Modelled from the spec: `decrypt(σ̃, y) → σ`
(`ecdsa_fun::adaptor::Adaptor::decrypt_signature`): the signature scalar is
`s_hat·y⁻¹` and `r` is the conversion of `R`. -/
def decrypt_signature (es : EncSig) (y : F) : Sig :=
  ⟨es.bigR, es.s_hat * finv y⟩

/-! ### Bitcoin transaction data model -/

/-- Script bytes. -/
abbrev Script : Type := List ℕ

/-- A Bitcoin address, identified with the script pubkey it encodes
(`Address::script_pubkey`). -/
structure Address where
  script_pubkey : Script
deriving DecidableEq, Repr

/-- `bitcoin::OutPoint`. -/
structure OutPoint where
  txid : ℕ
  vout : ℕ
deriving DecidableEq, Repr

/-- `bitcoin::TxOut`. -/
structure TxOut where
  value : ℕ
  script_pubkey : Script
deriving DecidableEq, Repr

/-- `bitcoin::TxIn`; the witness is a stack of byte strings. -/
structure TxIn where
  previous_output : OutPoint
  script_sig : Script
  sequence : ℕ
  witness : List (List ℕ)
deriving DecidableEq, Repr

/-- `bitcoin::Transaction`. -/
structure Transaction where
  version : ℕ
  lock_time : ℕ
  input : List TxIn
  output : List TxOut
deriving DecidableEq, Repr

/-- `crate::bitcoin::TX_FEE`: the fixed fee, 10 000 sat per the spec. -/
def TX_FEE : ℕ := 10000

/-- The dust limit (546 sat) below which an output is non-standard. -/
def DUST_AMOUNT : ℕ := 546

/-- Injective encoding of a list of naturals, used by the modelled hashes. -/
def encList (l : List ℕ) : ℕ :=
  l.foldr (fun a acc => Nat.pair a acc + 1) 0

/-- Encoding of an outpoint. -/
def OutPoint.enc (o : OutPoint) : ℕ := Nat.pair o.txid o.vout

/-- Encoding of a transaction input. -/
def TxIn.enc (i : TxIn) : ℕ :=
  Nat.pair i.previous_output.enc
    (Nat.pair (encList i.script_sig) (Nat.pair i.sequence (encList (i.witness.map encList))))

/-- Encoding of a transaction output. -/
def TxOut.enc (o : TxOut) : ℕ := Nat.pair o.value (encList o.script_pubkey)

/-- Encoding of a whole transaction. -/
def Transaction.enc (tx : Transaction) : ℕ :=
  Nat.pair tx.version
    (Nat.pair tx.lock_time
      (Nat.pair (encList (tx.input.map TxIn.enc)) (encList (tx.output.map TxOut.enc))))

/-- Modelled from the spec: `Transaction::txid`, an injective digest of the
transaction (the double-SHA256 id of the `bitcoin` crate, abstracted). -/
def Transaction.txid (tx : Transaction) : ℕ := tx.enc

/-- `SigHashType::All` as its consensus byte. -/
def sighash_all : ℕ := 1

/-- Modelled from the spec: the BIP-143 segwit v0 signature hash
(`SigHashCache::signature_hash` of the `bitcoin` crate, not among the
sources): a digest of the transaction, the input index, the script code, the
input value and the sighash type. -/
def signature_hash (tx : Transaction) (idx : ℕ) (script_code : Script)
    (value : ℕ) (ty : ℕ) : F :=
  ((Nat.pair tx.enc (Nat.pair idx (Nat.pair (encList script_code) (Nat.pair value ty)))) : ℕ)

/-- Modelled from the spec: the canonical 2-of-2 multisig descriptor over the
two parties' keys (`miniscript::Descriptor`, not among the sources). -/
structure Descriptor where
  keyA : F
  keyB : F
deriving DecidableEq, Repr

/-- Modelled from the spec: the multisig witness script of the descriptor
(`OP_2 <A> <B> OP_2 OP_CHECKMULTISIG`). -/
def Descriptor.witness_script (d : Descriptor) : Script :=
  [82, d.keyA.val, d.keyB.val, 82, 174]

/-- Modelled from the spec: `Descriptor::script_pubkey`, the P2WSH script
committing to the witness script. -/
def Descriptor.script_pubkey (d : Descriptor) : Script :=
  [0, 32, encList d.witness_script]

/-- Modelled from the spec: `Descriptor::script_code`, the script code used by
segwit v0 sighashes; for P2WSH it is the witness script. -/
def Descriptor.script_code (d : Descriptor) : Script :=
  d.witness_script

/-- Serialization of a signature followed by the sighash-type byte, as placed
on the witness stack. -/
def ser_sig (sg : Sig) (ty : ℕ) : List ℕ :=
  [sg.r.val, sg.s.val, ty]

/-- Modelled from the spec: DER parsing of a signature
(`bitcoin::secp256k1::Signature::from_der`, not among the sources); a byte
string either decodes to a signature or fails. -/
def from_der (bs : List ℕ) : Option Sig :=
  match bs with
  | [a, b] => if a < Q ∧ b < Q then some ⟨(a : F), (b : F)⟩ else none
  | _ => none

/-- Modelled from the spec: descriptor satisfaction
(`miniscript::DescriptorTrait::satisfy` with a key-indexed signature map, not
among the sources): it looks up a signature for each of the two descriptor
keys — the satisfier map does not verify them — and, when both are present,
overwrites the input's witness with the two serialized signatures in the
descriptor's key order followed by the witness script.  Later insertions into
the map shadow earlier ones, so the map is searched front-first with later
insertions at the head. -/
def Descriptor.satisfy (d : Descriptor) (txin : TxIn) (sat : List (F × (Sig × ℕ))) :
    Option TxIn :=
  match sat.find? (fun p => p.1 == d.keyA), sat.find? (fun p => p.1 == d.keyB) with
  | some pa, some pb =>
      some { txin with
        witness := [ser_sig pa.2.1 pa.2.2, ser_sig pb.2.1 pb.2.2, d.witness_script] }
  | _, _ => none

/-- Mirror of `Iterator::position`: index of the first element satisfying the
predicate. -/
def listPosition (p : α → Bool) : List α → Option ℕ
  | [] => none
  | a :: l => if p a then some 0 else (listPosition p l).map (· + 1)

/-! ### The lock transaction (spec-modelled) and the `BtcRedeem` builder -/

/-- Modelled from the spec: `BtcLock`
(`src/swap/src/xmr_first_protocol/transactions/btc_lock.rs` is not among the
sources).  It determines the 2-of-2 output descriptor, the locked amount and
the outpoint of the shared output. -/
structure BtcLock where
  output_descriptor : Descriptor
  lock_amount : ℕ
  lock_outpoint : OutPoint
deriving DecidableEq, Repr

/-- Modelled from the spec: `BtcLock::build_spend_transaction`
(`build_redeem(TxLock, alice_addr)`): a single input referencing the 2-of-2
output with sequence `0xFFFFFFFF` when none is given, one output paying the
address the locked amount minus `TX_FEE`, version 2, absolute locktime 0. -/
def BtcLock.build_spend_transaction (l : BtcLock) (addr : Address) (seq : Option ℕ) :
    Transaction :=
  { version := 2
    lock_time := 0
    input := [⟨l.lock_outpoint, [], seq.getD 4294967295, []⟩]
    output := [⟨l.lock_amount - TX_FEE, addr.script_pubkey⟩] }

/-- `BtcRedeem` (btc_redeem.rs, lines 20-26). -/
structure BtcRedeem where
  inner : Transaction
  digest : F
  lock_output_descriptor : Descriptor
  watch_script : Script
deriving DecidableEq, Repr

/-- `BtcRedeem::new` (btc_redeem.rs, lines 29-47): build the spend of the lock
output to the redeem address and store the segwit v0 sighash of its only
input, computed over the lock descriptor's script code and the locked
amount with `SIGHASH_ALL`. -/
def BtcRedeem.new (tx_lock : BtcLock) (redeem_address : Address) : BtcRedeem :=
  let tx_redeem := tx_lock.build_spend_transaction redeem_address none
  { inner := tx_redeem
    digest := signature_hash tx_redeem 0 tx_lock.output_descriptor.script_code
      tx_lock.lock_amount sighash_all
    lock_output_descriptor := tx_lock.output_descriptor
    watch_script := redeem_address.script_pubkey }

/-- `BtcRedeem::txid` (btc_redeem.rs, lines 49-51). -/
def BtcRedeem.txid (rd : BtcRedeem) : ℕ := rd.inner.txid

/-- `BtcRedeem::lock_output_vout` (btc_redeem.rs, lines 62-70): position of
the output whose script pubkey equals the lock descriptor's script pubkey.
The Rust `.expect("transaction contains lock output")` panic is modelled as
`none`. -/
def BtcRedeem.lock_output_vout (rd : BtcRedeem) : Option ℕ :=
  listPosition (fun o => o.script_pubkey == rd.lock_output_descriptor.script_pubkey)
    rd.inner.output

/-- `BtcRedeem::as_outpoint` (btc_redeem.rs, lines 53-58); `none` models the
panic propagated from `lock_output_vout`. -/
def BtcRedeem.as_outpoint (rd : BtcRedeem) : Option OutPoint :=
  rd.lock_output_vout.map (fun v => ⟨rd.txid, v⟩)

/-- `BtcRedeem::encsig` (btc_redeem.rs, lines 76-82): adaptor signature by `b`
under statement `S_a_bitcoin` on the stored digest, with the deterministic
nonce. -/
def BtcRedeem.encsig (rd : BtcRedeem) (b : F) (S_a_bitcoin : F) : EncSig :=
  encsign b S_a_bitcoin rd.digest (det_nonce b rd.digest)

/-- Failure cases of `BtcRedeem::complete`; `noInput` models the index panic
on `input[0]` for an inputless transaction. -/
inductive CompleteError where
  | invalidEncSig
  | noInput
  | satisfyFailed
deriving DecidableEq, Repr

/-- `BtcRedeem::complete` (btc_redeem.rs, lines 84-127): verify the received
encrypted signature against `B` and the statement `s_a·G`, then sign with
`a`, decrypt the encrypted signature with `s_a`, and satisfy the lock output
descriptor on input 0 with the two signatures keyed by `A` and `B`. -/
def BtcRedeem.complete (rd : BtcRedeem) (a : F) (s_a : F) (B : F)
    (encrypted_signature : EncSig) : Except CompleteError Transaction :=
  if verify_encsig B (pub s_a) rd.digest encrypted_signature then
    let sig_a := ecdsa_sign a rd.digest (det_nonce a rd.digest)
    let sig_b := decrypt_signature encrypted_signature s_a
    let satisfier : List (F × (Sig × ℕ)) :=
      [(B, (sig_b, sighash_all)), (pub a, (sig_a, sighash_all))]
    match rd.inner.input with
    | [] => .error .noInput
    | i0 :: rest =>
      match rd.lock_output_descriptor.satisfy i0 satisfier with
      | none => .error .satisfyFailed
      | some i0' => .ok { rd.inner with input := i0' :: rest }
  else .error .invalidEncSig

/-- Failure cases of `BtcRedeem::extract_signature_by_key`: the five errors
the function itself enumerates, `sigParseFailed` for the propagated DER-parse
error of the secp256k1 crate, and `slicePanic`, which models the panic of the
slice `sig[.. sig.len() - 1]` on an empty candidate element (index
underflow) — a crash, not a returned error. -/
inductive ExtractError where
  | noInputs
  | tooManyInputs
  | emptyWitnessStack
  | notThreeWitnesses
  | slicePanic
  | sigParseFailed
  | noMatchingSignature
deriving DecidableEq, Repr

/-- The Rust slice `sig[.. sig.len() - 1]` (btc_redeem.rs, line 150):
`none` models the panic on an empty byte string, where the end index
underflows; otherwise it drops the trailing sighash byte. -/
def stripSighashByte (bs : List ℕ) : Option (List ℕ) :=
  match bs with
  | [] => none
  | _ => some bs.dropLast

/-- `BtcRedeem::extract_signature_by_key` (btc_redeem.rs, lines 129-164):
single input, three witness elements; for each candidate in order, slice off
its sighash byte (a panic on an empty element, modelled as `slicePanic`) and
DER-parse it (the parse error short-circuits via `?` before the next
candidate is touched); return the first candidate that verifies against `B`
on the stored digest. -/
def BtcRedeem.extract_signature_by_key (rd : BtcRedeem)
    (candidate_transaction : Transaction) (B : F) : Except ExtractError Sig :=
  match candidate_transaction.input with
  | [] => .error .noInputs
  | [input] =>
    match input.witness with
    | [] => .error .emptyWitnessStack
    | [sig_1, sig_2, _script] =>
      match stripSighashByte sig_1 with
      | none => .error .slicePanic
      | some b1 =>
        match from_der b1 with
        | none => .error .sigParseFailed
        | some s1 =>
          match stripSighashByte sig_2 with
          | none => .error .slicePanic
          | some b2 =>
            match from_der b2 with
            | none => .error .sigParseFailed
            | some s2 =>
              match [s1, s2].find? (fun sg => verify_sig B rd.digest sg) with
              | some sg => .ok sg
              | none => .error .noMatchingSignature
    | _ => .error .notThreeWitnesses
  | _ => .error .tooManyInputs

/-- `BtcRedeem::build_take_transaction` (btc_redeem.rs, lines 177-202): spend
the output found by `lock_output_vout` to the given address, paying its value
minus `TX_FEE`, with sequence `0xFFFFFFFF` when none is given, version 2 and
locktime 0; `none` models the panic propagated from `lock_output_vout`. -/
def BtcRedeem.build_take_transaction (rd : BtcRedeem) (spend_address : Address)
    (seq : Option ℕ) : Option Transaction :=
  match rd.as_outpoint, rd.lock_output_vout with
  | some previous_output, some vout =>
    (rd.inner.output.get? vout).map fun out =>
      { version := 2
        lock_time := 0
        input := [⟨previous_output, [], seq.getD 4294967295, []⟩]
        output := [⟨out.value - TX_FEE, spend_address.script_pubkey⟩] }
  | _, _ => none

/-! ### Balance assertions of the test harness -/

/-- `alice_submitted_cancel` (harness/mod.rs, lines 284-287): Bob's balance
after refund when Alice submitted the cancel transaction. -/
def alice_submitted_cancel (start_btc lock_fee balance : ℕ) : Bool :=
  balance == start_btc - lock_fee - TX_FEE

/-- `bob_submitted_cancel` (harness/mod.rs, lines 289-292): Bob's balance
after refund when Bob submitted the cancel transaction. -/
def bob_submitted_cancel (start_btc lock_fee balance : ℕ) : Bool :=
  balance == start_btc - lock_fee - 2 * TX_FEE

/-- The BTC part of `TestContext::assert_bob_refunded` (harness/mod.rs, lines
268-305): either variant is accepted. -/
def assert_bob_refunded_btc (start_btc lock_fee balance : ℕ) : Bool :=
  alice_submitted_cancel start_btc lock_fee balance ||
    bob_submitted_cancel start_btc lock_fee balance

/-- `TestContext::bob_refunded_xmr_balance` (harness/mod.rs, lines 360-362):
the expected XMR balance is the starting balance. -/
def bob_refunded_xmr_balance (starting_xmr : ℕ) : ℕ := starting_xmr

/-! ### Concrete example data used by witnesses and counterexamples -/

/-- An unsigned redeem transaction with one input. -/
def exTx : Transaction := ⟨2, 0, [⟨⟨0, 0⟩, [], 4294967295, []⟩], []⟩

/-- A `BtcRedeem` whose descriptor keys are the public keys of 3 and 5 and
whose digest is 1. -/
def exRedeem : BtcRedeem := ⟨exTx, 1, ⟨3, 5⟩, []⟩

/-- A redeem transaction whose single input already carries witness data. -/
def exTxSigned : Transaction := ⟨2, 0, [⟨⟨0, 0⟩, [], 4294967295, [[9]]⟩], []⟩

/-- A `BtcRedeem` whose input already carries witness data. -/
def exRedeemSigned : BtcRedeem := ⟨exTxSigned, 1, ⟨3, 5⟩, []⟩

/-- A lock whose amount leaves exactly the dust limit after two fee hops:
20546 − 10000 − 10000 = 546. -/
def c4lock : BtcLock := ⟨⟨3, 5⟩, 20546, ⟨7, 0⟩⟩

/-- The address whose script pubkey is the 2-of-2 descriptor's script
pubkey, so that the vout lookup of `BtcRedeem` succeeds. -/
def c4addr : Address := ⟨Descriptor.script_pubkey ⟨3, 5⟩⟩

/-- An address whose script pubkey differs from every descriptor script. -/
def addrBad : Address := ⟨[1, 2, 3]⟩

/-- A candidate transaction with a well-formed three-element witness stack
whose first candidate signature does not parse (four bytes). -/
def c3txParse : Transaction :=
  ⟨2, 0, [⟨⟨0, 0⟩, [], 4294967295, [[5, 5, 5, 5], [1, 2, 3], [0]]⟩], []⟩

/-- A candidate transaction whose first witness signature is the valid
signature of 5 on digest 1 with nonce 2, followed by the sighash byte. -/
def c3txOk : Transaction :=
  ⟨2, 0, [⟨⟨0, 0⟩, [], 4294967295, [[2, 56, 1], [0, 0, 1], [0]]⟩], []⟩

/-- A candidate transaction with a three-element witness stack whose first
candidate element is empty, the input on which the Rust slice panics. -/
def c3txPanic : Transaction :=
  ⟨2, 0, [⟨⟨0, 0⟩, [], 4294967295, [[], [0, 0, 1], [0]]⟩], []⟩

/-! ### Helper lemmas -/

theorem finv_eq_inv (x : F) : finv x = x⁻¹ := by
  by_cases hx : x = 0
  · subst hx
    rw [finv, zero_pow (by norm_num), inv_zero]
  · have h1 : x ^ (Q - 2) * x = 1 := by
      rw [← pow_succ]
      have h2 : Q - 2 + 1 = Q - 1 := by norm_num
      rw [h2]
      exact ZMod.pow_card_sub_one_eq_one hx
    exact eq_inv_of_mul_eq_one_left h1

theorem decrypt_encsign_verifies (x y m k : F)
    (hk : k ≠ 0) (hy : y ≠ 0) (hs : m + (k * y) * x ≠ 0) :
    verify_sig (pub x) m (decrypt_signature (encsign x (pub y) m k) y) = true := by
  have hr : k * y ≠ 0 := mul_ne_zero hk hy
  have hsig : (k⁻¹ * (m + (k * y) * x)) * y⁻¹ ≠ 0 :=
    mul_ne_zero (mul_ne_zero (inv_ne_zero hk) hs) (inv_ne_zero hy)
  simp only [verify_sig, encsign, decrypt_signature, pub, finv_eq_inv, decide_eq_true_eq]
  refine ⟨hr, hsig, ?_⟩
  field_simp

theorem encsign_encverify (x Y m k : F)
    (hk : k ≠ 0) (hY : Y ≠ 0) (hs : m + (k * Y) * x ≠ 0) :
    verify_encsig (pub x) Y m (encsign x Y m k) = true := by
  have hr : k * Y ≠ 0 := mul_ne_zero hk hY
  have hsh : k⁻¹ * (m + (k * Y) * x) ≠ 0 := mul_ne_zero (inv_ne_zero hk) hs
  simp only [verify_encsig, encsign, pub, finv_eq_inv, decide_eq_true_eq]
  refine ⟨hr, hsh, ?_, trivial⟩
  field_simp

theorem listPosition_eq_none_iff (p : α → Bool) (l : List α) :
    listPosition p l = none ↔ ∀ a ∈ l, p a = false := by
  induction l with
  | nil => simp [listPosition]
  | cons a l ih => by_cases h : p a <;> simp [listPosition, h, ih]

theorem listPosition_eq_some (p : α → Bool) (l : List α) (i : ℕ)
    (h : listPosition p l = some i) :
    ∃ a, l.get? i = some a ∧ p a = true := by
  induction l generalizing i with
  | nil => simp [listPosition] at h
  | cons a l ih =>
    simp only [listPosition] at h
    by_cases hp : p a
    · rw [if_pos hp] at h
      obtain rfl : (0 : ℕ) = i := Option.some.inj h
      exact ⟨a, rfl, hp⟩
    · rw [if_neg hp] at h
      cases hll : listPosition p l with
      | none => rw [hll] at h; simp at h
      | some j =>
        rw [hll, Option.map_some'] at h
        obtain rfl : j + 1 = i := Option.some.inj h
        obtain ⟨b, hb, hpb⟩ := ih j hll
        exact ⟨b, by simpa using hb, hpb⟩

theorem find?_pair (k x1 x2 : F) (e1 e2 : Sig × ℕ) (h : k = x1 ∨ k = x2) :
    ∃ p, (([(x1, e1), (x2, e2)] : List (F × (Sig × ℕ))).find?
      (fun q => q.1 == k)) = some p := by
  by_cases h1 : x1 = k
  · exact ⟨(x1, e1), by simp [List.find?, h1]⟩
  · rcases h with h | h
    · exact absurd h.symm h1
    · subst h
      have hne : (x1 == k) = false := beq_eq_false_iff_ne.mpr h1
      exact ⟨(k, e2), by simp [List.find?, hne]⟩

theorem satisfy_pair_isSome (d : Descriptor) (txin : TxIn) (x1 x2 : F) (e1 e2 : Sig × ℕ)
    (hA : d.keyA = x1 ∨ d.keyA = x2) (hB : d.keyB = x1 ∨ d.keyB = x2) :
    ∃ t, d.satisfy txin [(x1, e1), (x2, e2)] = some t ∧ t.witness.length = 3 := by
  obtain ⟨pa, hpa⟩ := find?_pair d.keyA x1 x2 e1 e2 hA
  obtain ⟨pb, hpb⟩ := find?_pair d.keyB x1 x2 e1 e2 hB
  refine ⟨{ txin with
    witness := [ser_sig pa.2.1 pa.2.2, ser_sig pb.2.1 pb.2.2, d.witness_script] }, ?_, rfl⟩
  rw [Descriptor.satisfy, hpa, hpb]

theorem complete_succeeds (rd : BtcRedeem) (a s_a B : F) (es : EncSig)
    (i0 : TxIn) (rest : List TxIn)
    (hin : rd.inner.input = i0 :: rest)
    (hv : verify_encsig B (pub s_a) rd.digest es = true)
    (hA : rd.lock_output_descriptor.keyA = B ∨ rd.lock_output_descriptor.keyA = pub a)
    (hB : rd.lock_output_descriptor.keyB = B ∨ rd.lock_output_descriptor.keyB = pub a) :
    ∃ i0', rd.complete a s_a B es = .ok { rd.inner with input := i0' :: rest }
      ∧ i0'.witness.length = 3 := by
  obtain ⟨t, ht, hl⟩ := satisfy_pair_isSome rd.lock_output_descriptor i0 B (pub a)
    (decrypt_signature es s_a, sighash_all)
    (ecdsa_sign a rd.digest (det_nonce a rd.digest), sighash_all) hA hB
  refine ⟨t, ?_, hl⟩
  rw [BtcRedeem.complete]
  simp only [hv, if_true]
  rw [hin]
  simp only [ht]

theorem listPosition_singleton (p : α → Bool) (a : α) :
    listPosition p [a] = if p a then some 0 else none := by
  by_cases h : p a <;> simp [listPosition, h]

theorem lock_output_vout_new (lock : BtcLock) (addr : Address) :
    (BtcRedeem.new lock addr).lock_output_vout =
      if addr.script_pubkey = lock.output_descriptor.script_pubkey
        then some 0 else none := by
  have h0 : (BtcRedeem.new lock addr).lock_output_vout =
      listPosition (fun o : TxOut => o.script_pubkey == lock.output_descriptor.script_pubkey)
        [⟨lock.lock_amount - TX_FEE, addr.script_pubkey⟩] := rfl
  rw [h0, listPosition_singleton]
  by_cases h : addr.script_pubkey = lock.output_descriptor.script_pubkey
  · rw [if_pos h]
    have hb : ((⟨lock.lock_amount - TX_FEE, addr.script_pubkey⟩ : TxOut).script_pubkey
        == lock.output_descriptor.script_pubkey) = true := beq_iff_eq.mpr h
    rw [hb]
    rfl
  · rw [if_neg h]
    have hb : ((⟨lock.lock_amount - TX_FEE, addr.script_pubkey⟩ : TxOut).script_pubkey
        == lock.output_descriptor.script_pubkey) = false := beq_eq_false_iff_ne.mpr h
    rw [hb]
    rfl

theorem build_take_eq (rd : BtcRedeem) (addr : Address) (seq : Option ℕ) (v : ℕ)
    (hv : rd.lock_output_vout = some v) :
    ∃ out, rd.inner.output.get? v = some out ∧
      rd.build_take_transaction addr seq = some
        { version := 2
          lock_time := 0
          input := [⟨⟨rd.txid, v⟩, [], seq.getD 4294967295, []⟩]
          output := [⟨out.value - TX_FEE, addr.script_pubkey⟩] } := by
  obtain ⟨out, hout, hp⟩ := listPosition_eq_some _ _ v hv
  refine ⟨out, hout, ?_⟩
  rw [BtcRedeem.build_take_transaction, BtcRedeem.as_outpoint, hv]
  simp only [Option.map_some']
  rw [hout]
  simp [Option.map_some']

/-! ### Claims -/

/-- Claim C1: for every valid secret key with public key, statement point
`Y = y·G` and digest, decrypting the adaptor signature `encsign` with `y`
yields a plain ECDSA signature verifying against the signer's public key; in
particular, in `BtcRedeem::complete`, decrypting the received encrypted
signature with `s_a` yields a valid signature by `B` on the redeem digest and
satisfying the 2-of-2 descriptor with it succeeds. -/
theorem c1_decrypt_yields_valid_signature (rd : BtcRedeem) (a b s_a k : F)
    (hA : rd.lock_output_descriptor.keyA = pub a)
    (hB : rd.lock_output_descriptor.keyB = pub b)
    (hin : rd.inner.input ≠ [])
    (hk : k ≠ 0) (hsa : s_a ≠ 0)
    (hm : rd.digest + (k * s_a) * b ≠ 0) :
    verify_sig (pub b) rd.digest
        (decrypt_signature (encsign b (pub s_a) rd.digest k) s_a) = true
    ∧ ∃ tx, rd.complete a s_a (pub b) (encsign b (pub s_a) rd.digest k) = .ok tx := by
  obtain ⟨i0, rest, hin'⟩ := List.exists_cons_of_ne_nil hin
  have hv : verify_encsig (pub b) (pub s_a) rd.digest
      (encsign b (pub s_a) rd.digest k) = true :=
    encsign_encverify b (pub s_a) rd.digest k hk hsa hm
  obtain ⟨i0', hok, _⟩ := complete_succeeds rd a s_a (pub b)
    (encsign b (pub s_a) rd.digest k) i0 rest hin' hv (Or.inr hA) (Or.inl hB)
  exact ⟨decrypt_encsign_verifies b s_a rd.digest k hk hsa hm, _, hok⟩

/-- Witness for C1 at concrete values: key 5, adaptor secret 7, digest 1,
nonce 2, on a redeem whose descriptor keys are the public keys of 3 and 5. -/
theorem c1_witness :
    verify_sig (pub 5) (1 : F) (decrypt_signature (encsign 5 (pub 7) 1 2) 7) = true
    ∧ ∃ tx, exRedeem.complete 3 7 (pub 5) (encsign 5 (pub 7) 1 2) = .ok tx :=
  c1_decrypt_yields_valid_signature exRedeem 3 5 7 2 rfl rfl (by decide) (by decide)
    (by decide) (by decide)

/-- Claim C2: the adaptor signature produced by `encsign` passes `encverify`
against the signer's public key and the statement point; in particular, the
encrypted signature returned by `BtcRedeem::encsig` over the stored redeem
digest passes the `verify_encsig` check performed in `BtcRedeem::complete`. -/
theorem c2_encsign_passes_encverify (rd : BtcRedeem) (x Y k : F)
    (hk : k ≠ 0) (hY : Y ≠ 0) (hm : rd.digest + (k * Y) * x ≠ 0) :
    verify_encsig (pub x) Y rd.digest (encsign x Y rd.digest k) = true
    ∧ (k = det_nonce x rd.digest →
        verify_encsig (pub x) Y rd.digest (rd.encsig x Y) = true) := by
  refine ⟨encsign_encverify x Y rd.digest k hk hY hm, fun hkd => ?_⟩
  rw [BtcRedeem.encsig, ← hkd]
  exact encsign_encverify x Y rd.digest k hk hY hm

/-- Witness for C2 at key 5, statement 7, digest 1 and the deterministic
nonce 12. -/
theorem c2_witness :
    verify_encsig (pub 5) 7 (1 : F) (encsign 5 7 1 12) = true
    ∧ verify_encsig (pub 5) 7 (1 : F) (exRedeem.encsig 5 7) = true :=
  ⟨(c2_encsign_passes_encverify exRedeem 5 7 12 (by decide) (by decide) (by decide)).1,
   (c2_encsign_passes_encverify exRedeem 5 7 12 (by decide) (by decide) (by decide)).2
     (by decide)⟩

/-- Counterexample for C3: with a single input and a well-formed
three-element witness stack whose first candidate does not DER-parse,
`extract_signature_by_key` fails with the propagated parse error, which is
not among the five enumerated errors — refuting that no other failure is
possible. -/
theorem c3_counterexample :
    exRedeem.extract_signature_by_key c3txParse 0 = .error .sigParseFailed := rfl

/-- Claim C3 (amended): `extract_signature_by_key` returns the witness-stack
signature that verifies against `B` on the redeem digest, and fails with
`NoInputs` when there are no inputs, `TooManyInputs` for more than one input,
`EmptyWitnessStack` for an empty witness, `NotThreeWitnesses` when the
witness does not have exactly three elements, and `NoMatchingSignature` when
neither parsed candidate verifies against `B`; in addition, processing the
two candidates left to right, it panics on the slice of an empty candidate
element and fails with the signature parser's propagated error when a
non-empty candidate does not parse as a DER signature — so the five
enumerated errors are not the only possible outcomes. -/
theorem c3_extract_signature_cases (rd : BtcRedeem) (tx : Transaction) (B : F) :
    (tx.input = [] → rd.extract_signature_by_key tx B = .error .noInputs)
    ∧ (2 ≤ tx.input.length →
        rd.extract_signature_by_key tx B = .error .tooManyInputs)
    ∧ (∀ i, tx.input = [i] → i.witness = [] →
        rd.extract_signature_by_key tx B = .error .emptyWitnessStack)
    ∧ (∀ i, tx.input = [i] → i.witness ≠ [] → i.witness.length ≠ 3 →
        rd.extract_signature_by_key tx B = .error .notThreeWitnesses)
    ∧ (∀ i w1 w2 w3, tx.input = [i] → i.witness = [w1, w2, w3] → w1 = [] →
        rd.extract_signature_by_key tx B = .error .slicePanic)
    ∧ (∀ i w1 w2 w3, tx.input = [i] → i.witness = [w1, w2, w3] → w1 ≠ [] →
        from_der w1.dropLast = none →
        rd.extract_signature_by_key tx B = .error .sigParseFailed)
    ∧ (∀ i w1 w2 w3 s1, tx.input = [i] → i.witness = [w1, w2, w3] → w1 ≠ [] →
        from_der w1.dropLast = some s1 → w2 = [] →
        rd.extract_signature_by_key tx B = .error .slicePanic)
    ∧ (∀ i w1 w2 w3 s1, tx.input = [i] → i.witness = [w1, w2, w3] → w1 ≠ [] →
        from_der w1.dropLast = some s1 → w2 ≠ [] →
        from_der w2.dropLast = none →
        rd.extract_signature_by_key tx B = .error .sigParseFailed)
    ∧ (∀ i w1 w2 w3 s1 s2, tx.input = [i] → i.witness = [w1, w2, w3] →
        w1 ≠ [] → w2 ≠ [] →
        from_der w1.dropLast = some s1 → from_der w2.dropLast = some s2 →
        (verify_sig B rd.digest s1 = true →
            rd.extract_signature_by_key tx B = .ok s1)
          ∧ (verify_sig B rd.digest s1 = false → verify_sig B rd.digest s2 = true →
            rd.extract_signature_by_key tx B = .ok s2)
          ∧ (verify_sig B rd.digest s1 = false → verify_sig B rd.digest s2 = false →
            rd.extract_signature_by_key tx B = .error .noMatchingSignature)) := by
  obtain ⟨ver, lt, input, output⟩ := tx
  refine ⟨?_, ?_, ?_, ?_, ?_, ?_, ?_, ?_, ?_⟩
  · intro h
    change input = [] at h
    subst h
    rfl
  · intro h
    change 2 ≤ input.length at h
    rcases input with _ | ⟨i, _ | ⟨j, rest⟩⟩
    · change 2 ≤ 0 at h
      exact absurd h (by decide)
    · change 2 ≤ 1 at h
      exact absurd h (by decide)
    · rfl
  · intro i hi hw
    change input = [i] at hi
    subst hi
    obtain ⟨po, ss, sq, wit⟩ := i
    change wit = [] at hw
    subst hw
    rfl
  · intro i hi hne h3
    change input = [i] at hi
    subst hi
    obtain ⟨po, ss, sq, wit⟩ := i
    rcases wit with _ | ⟨w1, _ | ⟨w2, _ | ⟨w3, _ | ⟨w4, ws⟩⟩⟩⟩
    · exact absurd rfl hne
    · rfl
    · rfl
    · exact absurd rfl h3
    · rfl
  · intro i w1 w2 w3 hi hw hw1
    change input = [i] at hi
    subst hi
    obtain ⟨po, ss, sq, wit⟩ := i
    change wit = [w1, w2, w3] at hw
    subst hw
    subst hw1
    rfl
  · intro i w1 w2 w3 hi hw hne h1
    change input = [i] at hi
    subst hi
    obtain ⟨po, ss, sq, wit⟩ := i
    change wit = [w1, w2, w3] at hw
    subst hw
    rcases w1 with _ | ⟨b, bs⟩
    · exact absurd rfl hne
    · simp only [BtcRedeem.extract_signature_by_key, stripSighashByte, h1]
  · intro i w1 w2 w3 s1 hi hw hne h1 hw2
    change input = [i] at hi
    subst hi
    obtain ⟨po, ss, sq, wit⟩ := i
    change wit = [w1, w2, w3] at hw
    subst hw
    subst hw2
    rcases w1 with _ | ⟨b, bs⟩
    · exact absurd rfl hne
    · simp only [BtcRedeem.extract_signature_by_key, stripSighashByte, h1]
  · intro i w1 w2 w3 s1 hi hw hne1 h1 hne2 h2
    change input = [i] at hi
    subst hi
    obtain ⟨po, ss, sq, wit⟩ := i
    change wit = [w1, w2, w3] at hw
    subst hw
    rcases w1 with _ | ⟨b, bs⟩
    · exact absurd rfl hne1
    · rcases w2 with _ | ⟨c, cs⟩
      · exact absurd rfl hne2
      · simp only [BtcRedeem.extract_signature_by_key, stripSighashByte, h1, h2]
  · intro i w1 w2 w3 s1 s2 hi hw hne1 hne2 h1 h2
    change input = [i] at hi
    subst hi
    obtain ⟨po, ss, sq, wit⟩ := i
    change wit = [w1, w2, w3] at hw
    subst hw
    rcases w1 with _ | ⟨b, bs⟩
    · exact absurd rfl hne1
    · rcases w2 with _ | ⟨c, cs⟩
      · exact absurd rfl hne2
      · simp only [BtcRedeem.extract_signature_by_key, stripSighashByte, h1, h2]
        refine ⟨fun hv1 => ?_, fun hv1 hv2 => ?_, fun hv1 hv2 => ?_⟩
        · simp [List.find?, hv1]
        · simp [List.find?, hv1, hv2]
        · simp [List.find?, hv1, hv2]

/-- Witness for C3: on a well-formed candidate whose first witness signature
is the valid signature of 5 on digest 1, extraction returns that signature;
and on a candidate whose first witness element is empty, it hits the
modelled slice panic. -/
theorem c3_witness :
    exRedeem.extract_signature_by_key c3txOk (pub 5) = .ok ⟨2, 56⟩
    ∧ exRedeem.extract_signature_by_key c3txPanic (pub 5) = .error .slicePanic :=
  ⟨((c3_extract_signature_cases exRedeem c3txOk (pub 5)).2.2.2.2.2.2.2.2
      ⟨⟨0, 0⟩, [], 4294967295, [[2, 56, 1], [0, 0, 1], [0]]⟩
      [2, 56, 1] [0, 0, 1] [0] ⟨2, 56⟩ ⟨0, 0⟩ rfl rfl (by decide) (by decide)
      (by decide) (by decide)).1 (by decide),
   (c3_extract_signature_cases exRedeem c3txPanic (pub 5)).2.2.2.2.1
      ⟨⟨0, 0⟩, [], 4294967295, [[], [0, 0, 1], [0]]⟩
      [] [0, 0, 1] [0] rfl rfl rfl⟩

/-- Counterexample for C4: for a lock of 20546 sat the take transaction's
output value is 546 sat, which is not above the dust limit, yet
`build_take_transaction` succeeds instead of failing with an underflow
error. -/
theorem c4_counterexample :
    (BtcRedeem.new c4lock c4addr).build_take_transaction c4addr none = some
      { version := 2
        lock_time := 0
        input := [⟨⟨(BtcRedeem.new c4lock c4addr).txid, 0⟩, [], 4294967295, []⟩]
        output := [⟨546, c4addr.script_pubkey⟩] }
    ∧ 546 ≤ DUST_AMOUNT := by
  exact ⟨rfl, by decide⟩

/-- Claim C4 (amended): `build_take_transaction` performs no dust or
underflow check at all: whenever the vout lookup succeeds it constructs the
transaction paying the spent output's value minus `TX_FEE`, even when that
value is at or below the dust limit. -/
theorem c4_no_underflow_check (rd : BtcRedeem) (addr : Address) (seq : Option ℕ) (v : ℕ)
    (hv : rd.lock_output_vout = some v) :
    ∃ out, rd.inner.output.get? v = some out ∧
      rd.build_take_transaction addr seq = some
        { version := 2
          lock_time := 0
          input := [⟨⟨rd.txid, v⟩, [], seq.getD 4294967295, []⟩]
          output := [⟨out.value - TX_FEE, addr.script_pubkey⟩] } :=
  build_take_eq rd addr seq v hv

/-- Witness for C4 (amended) on the concrete dust-level redeem. -/
theorem c4_witness :
    ∃ out, (BtcRedeem.new c4lock c4addr).inner.output.get? 0 = some out ∧
      (BtcRedeem.new c4lock c4addr).build_take_transaction c4addr none = some
        { version := 2
          lock_time := 0
          input := [⟨⟨(BtcRedeem.new c4lock c4addr).txid, 0⟩, [], 4294967295, []⟩]
          output := [⟨out.value - TX_FEE, c4addr.script_pubkey⟩] } :=
  c4_no_underflow_check (BtcRedeem.new c4lock c4addr) c4addr none 0 (by decide)

/-- Counterexample for C5: a `BtcRedeem` whose single input already carries
witness data, yet `complete` succeeds (overwriting the witness) instead of
failing with an already-signed error. -/
theorem c5_counterexample :
    exRedeemSigned.inner.input.map TxIn.witness = [[[9]]]
    ∧ (exRedeemSigned.complete 3 7 5 (encsign 5 (pub 7) 1 2)).toOption.isSome = true := by
  decide

/-- Claim C5 (amended): `complete` does not inspect existing witness data:
whenever the received encrypted signature verifies and the descriptor's keys
are covered by the satisfier, it succeeds and overwrites the first input's
witness with a fresh three-element stack, regardless of any witness already
present. -/
theorem c5_complete_overwrites_witness (rd : BtcRedeem) (a s_a B : F) (es : EncSig)
    (i0 : TxIn) (rest : List TxIn)
    (hin : rd.inner.input = i0 :: rest)
    (hv : verify_encsig B (pub s_a) rd.digest es = true)
    (hA : rd.lock_output_descriptor.keyA = B ∨ rd.lock_output_descriptor.keyA = pub a)
    (hB : rd.lock_output_descriptor.keyB = B ∨ rd.lock_output_descriptor.keyB = pub a) :
    ∃ i0', rd.complete a s_a B es = .ok { rd.inner with input := i0' :: rest }
      ∧ i0'.witness.length = 3 :=
  complete_succeeds rd a s_a B es i0 rest hin hv hA hB

/-- Witness for C5 (amended) on the already-signed concrete redeem. -/
theorem c5_witness :
    ∃ i0', exRedeemSigned.complete 3 7 5 (encsign 5 (pub 7) 1 2) =
        .ok { exRedeemSigned.inner with input := i0' :: [] }
      ∧ i0'.witness.length = 3 :=
  c5_complete_overwrites_witness exRedeemSigned 3 7 5 (encsign 5 (pub 7) 1 2)
    ⟨⟨0, 0⟩, [], 4294967295, [[9]]⟩ [] rfl (by decide) (Or.inr rfl) (Or.inl rfl)

/-- Claim C6: the redeem transaction built by `BtcRedeem` from a lock has
exactly one input referencing the 2-of-2 locked outpoint with sequence
`0xFFFFFFFF`, one output paying the redeem address the locked amount minus
`TX_FEE`, version 2 and locktime 0; and the take transaction spending it has
the same shape, referencing the redeem outpoint and paying the spend address
the spent value minus `TX_FEE`. -/
theorem c6_transaction_shape (lock : BtcLock) (addr spend : Address) :
    (BtcRedeem.new lock addr).inner =
      { version := 2
        lock_time := 0
        input := [⟨lock.lock_outpoint, [], 4294967295, []⟩]
        output := [⟨lock.lock_amount - TX_FEE, addr.script_pubkey⟩] }
    ∧ (addr.script_pubkey = lock.output_descriptor.script_pubkey →
        (BtcRedeem.new lock addr).build_take_transaction spend none =
          some { version := 2
                 lock_time := 0
                 input := [⟨⟨(BtcRedeem.new lock addr).txid, 0⟩, [], 4294967295, []⟩]
                 output := [⟨lock.lock_amount - TX_FEE - TX_FEE, spend.script_pubkey⟩] }) := by
  refine ⟨rfl, fun h => ?_⟩
  have hvout : (BtcRedeem.new lock addr).lock_output_vout = some 0 := by
    rw [lock_output_vout_new, if_pos h]
  obtain ⟨out, hout, htx⟩ :=
    build_take_eq (BtcRedeem.new lock addr) spend none 0 hvout
  obtain rfl : (⟨lock.lock_amount - TX_FEE, addr.script_pubkey⟩ : TxOut) = out :=
    Option.some.inj hout
  exact htx

/-- Witness for C6 at the concrete lock and a matching redeem address. -/
theorem c6_witness :
    (BtcRedeem.new c4lock c4addr).inner =
      { version := 2
        lock_time := 0
        input := [⟨c4lock.lock_outpoint, [], 4294967295, []⟩]
        output := [⟨c4lock.lock_amount - TX_FEE, c4addr.script_pubkey⟩] }
    ∧ (BtcRedeem.new c4lock c4addr).build_take_transaction addrBad none =
        some { version := 2
               lock_time := 0
               input := [⟨⟨(BtcRedeem.new c4lock c4addr).txid, 0⟩, [], 4294967295, []⟩]
               output := [⟨c4lock.lock_amount - TX_FEE - TX_FEE, addrBad.script_pubkey⟩] } :=
  ⟨(c6_transaction_shape c4lock c4addr addrBad).1,
   (c6_transaction_shape c4lock c4addr addrBad).2 rfl⟩

/-- Claim C7: the digest stored by `BtcRedeem::new` and returned by
`digest()` is the segwit v0 sighash of input 0 of the redeem transaction,
computed over the lock descriptor's script code with the lock amount and
sighash type `SIGHASH_ALL`. -/
theorem c7_digest_is_sighash (lock : BtcLock) (addr : Address) :
    (BtcRedeem.new lock addr).digest =
      signature_hash (lock.build_spend_transaction addr none) 0
        lock.output_descriptor.script_code lock.lock_amount sighash_all := rfl

/-- Claim C8: when the received encrypted signature fails `encverify`
against `B` and the statement point derived from `s_a`, `complete` returns
the invalid-encrypted-signature error before signing or satisfying anything,
and no transaction value is produced. -/
theorem c8_invalid_encsig_aborts (rd : BtcRedeem) (a s_a B : F) (es : EncSig)
    (hv : verify_encsig B (pub s_a) rd.digest es = false) :
    rd.complete a s_a B es = .error .invalidEncSig := by
  rw [BtcRedeem.complete]
  simp only [hv]
  rfl

/-- Witness for C8: the all-zero encrypted signature fails verification and
`complete` aborts with the invalid-encrypted-signature error. -/
theorem c8_witness :
    exRedeem.complete 3 7 5 ⟨0, 0, 0⟩ = .error .invalidEncSig :=
  c8_invalid_encsig_aborts exRedeem 3 7 5 ⟨0, 0, 0⟩ (by decide)

/-- Claim C9: the refund assertion for Bob accepts exactly two BTC balances,
start minus lock fee minus `TX_FEE` (Alice submitted cancel) and start minus
lock fee minus `2·TX_FEE` (Bob submitted cancel), which differ by one
`TX_FEE`; the expected XMR balance is the starting balance. -/
theorem c9_bob_refund_balances (start_btc lock_fee balance start_xmr : ℕ)
    (h : lock_fee + 2 * TX_FEE ≤ start_btc) :
    (assert_bob_refunded_btc start_btc lock_fee balance = true ↔
      balance = start_btc - lock_fee - TX_FEE ∨
        balance = start_btc - lock_fee - 2 * TX_FEE)
    ∧ start_btc - lock_fee - TX_FEE = (start_btc - lock_fee - 2 * TX_FEE) + TX_FEE
    ∧ bob_refunded_xmr_balance start_xmr = start_xmr := by
  refine ⟨?_, ?_, rfl⟩
  · simp [assert_bob_refunded_btc, alice_submitted_cancel, bob_submitted_cancel]
  · unfold TX_FEE
    unfold TX_FEE at h
    omega

/-- Witness for C9 at a starting balance of 1 000 000 sat and a lock fee of
1000 sat. -/
theorem c9_witness :
    (assert_bob_refunded_btc 1000000 1000 989000 = true ↔
      989000 = 1000000 - 1000 - TX_FEE ∨ 989000 = 1000000 - 1000 - 2 * TX_FEE)
    ∧ 1000000 - 1000 - TX_FEE = (1000000 - 1000 - 2 * TX_FEE) + TX_FEE
    ∧ bob_refunded_xmr_balance 50 = 50 :=
  c9_bob_refund_balances 1000000 1000 989000 50 (by decide)

/-- Claim C10: `as_outpoint` panics (modelled as `none`) exactly when no
output of the stored redeem transaction matches the lock descriptor's script
pubkey; since the redeem transaction's only output pays the redeem address,
`as_outpoint` and `build_take_transaction` panic for every `BtcRedeem` whose
redeem address script differs from the descriptor's script pubkey. -/
theorem c10_outpoint_partiality (rd : BtcRedeem) (lock : BtcLock)
    (addr spend : Address) (seq : Option ℕ) :
    (rd.as_outpoint = none ↔
      ∀ out ∈ rd.inner.output,
        out.script_pubkey ≠ rd.lock_output_descriptor.script_pubkey)
    ∧ (addr.script_pubkey ≠ lock.output_descriptor.script_pubkey →
        (BtcRedeem.new lock addr).as_outpoint = none
        ∧ (BtcRedeem.new lock addr).build_take_transaction spend seq = none) := by
  constructor
  · rw [BtcRedeem.as_outpoint, Option.map_eq_none', BtcRedeem.lock_output_vout,
      listPosition_eq_none_iff]
    constructor
    · intro h out hmem
      exact beq_eq_false_iff_ne.mp (h out hmem)
    · intro h out hmem
      exact beq_eq_false_iff_ne.mpr (h out hmem)
  · intro h
    have hvout : (BtcRedeem.new lock addr).lock_output_vout = none := by
      rw [lock_output_vout_new, if_neg h]
    have haout : (BtcRedeem.new lock addr).as_outpoint = none := by
      rw [BtcRedeem.as_outpoint, hvout]
      rfl
    refine ⟨haout, ?_⟩
    rw [BtcRedeem.build_take_transaction, haout, hvout]

/-- Witness for C10 at a redeem address that does not match the lock
descriptor. -/
theorem c10_witness :
    (exRedeem.as_outpoint = none ↔
      ∀ out ∈ exRedeem.inner.output,
        out.script_pubkey ≠ exRedeem.lock_output_descriptor.script_pubkey)
    ∧ ((BtcRedeem.new c4lock addrBad).as_outpoint = none
        ∧ (BtcRedeem.new c4lock addrBad).build_take_transaction c4addr none = none) :=
  ⟨(c10_outpoint_partiality exRedeem c4lock addrBad c4addr none).1,
   (c10_outpoint_partiality exRedeem c4lock addrBad c4addr none).2 (by decide)⟩

end XmrBtcSwap
